import Mathlib

/-
Verification development for journalctl-ts (src/JournalCtl.ts).

The embedding below translates, from the source:
  - the option validators (validateFieldName, validateSyslogIdentifier,
    validateDate, validatePositiveInteger, validatePriority, validateUnit);
  - the argument construction performed by the JournalCtl constructor;
  - the stdout line handler: the trailing-comma repair
    line.replace of the pattern comma-whitespace-closebrace at end of line,
    JSON.parse, and the MESSAGE and _HOSTNAME defaulting;
  - the exit handler: error and exit signal emission with the accumulated
    standard-error text;
  - the push-mode signal stream and the pull-mode async generator
    (createGenerator) with its promise-queue plumbing.
-/

/-!  JSON values as produced by JSON.parse.  Number values keep their raw
token text: no property in this development depends on the numeric value
of a parsed number, only on token identity.  -/

inductive Json where
  | null : Json
  | bool (b : Bool) : Json
  | num (tok : String) : Json
  | str (s : String) : Json
  | arr (elems : List Json) : Json
  | obj (members : List (String × Json)) : Json

/-- The four JSON insignificant-whitespace characters (space, tab, line
feed, carriage return), as accepted by JSON.parse between tokens. -/
def isJsonWs (c : Char) : Bool :=
  c.toNat = 32 || c.toNat = 9 || c.toNat = 10 || c.toNat = 13

/-- The character class of the JavaScript regular-expression escape for
whitespace, used by the repair pattern in the stdout line handler. -/
def isJsRegexWs (c : Char) : Bool :=
  c.toNat = 9 || c.toNat = 10 || c.toNat = 11 || c.toNat = 12 || c.toNat = 13 ||
  c.toNat = 32 || c.toNat = 0xa0 || c.toNat = 0x1680 ||
  (0x2000 ≤ c.toNat && c.toNat ≤ 0x200a) ||
  c.toNat = 0x2028 || c.toNat = 0x2029 || c.toNat = 0x202f ||
  c.toNat = 0x205f || c.toNat = 0x3000 || c.toNat = 0xfeff

def skipWs : List Char → List Char
  | [] => []
  | c :: cs => if isJsonWs c then skipWs cs else c :: cs

def isDigitCh (c : Char) : Bool := 48 ≤ c.toNat && c.toNat ≤ 57

def spanDigits : List Char → List Char × List Char
  | [] => ([], [])
  | c :: cs =>
    if isDigitCh c then
      let (d, r) := spanDigits cs
      (c :: d, r)
    else ([], c :: cs)

/-- Integer part of a JSON number token: a single 0, or a nonzero digit
followed by digits (JSON.parse rejects leading zeros). -/
def parseIntPart : List Char → Option (List Char × List Char)
  | [] => none
  | c :: cs =>
    if c = '0' then some (['0'], cs)
    else if isDigitCh c then
      let (d, r) := spanDigits cs
      some (c :: d, r)
    else none

/-- Optional fractional part of a JSON number token. -/
def parseFracPart : List Char → Option (List Char × List Char)
  | '.' :: cs =>
    match spanDigits cs with
    | ([], _) => none
    | (d, r) => some ('.' :: d, r)
  | cs => some ([], cs)

/-- Optional exponent part of a JSON number token. -/
def parseExpPart : List Char → Option (List Char × List Char)
  | c :: cs =>
    if c = 'e' || c = 'E' then
      match cs with
      | s :: cs2 =>
        if s = '+' || s = '-' then
          match spanDigits cs2 with
          | ([], _) => none
          | (d, r) => some (c :: s :: d, r)
        else
          match spanDigits cs with
          | ([], _) => none
          | (d, r) => some (c :: d, r)
      | [] => none
    else some ([], c :: cs)
  | [] => some ([], [])

/-- A whole JSON number token, returned as its raw characters. -/
def parseNumberTok (cs : List Char) : Option (List Char × List Char) :=
  let (sign, cs1) := match cs with
    | '-' :: r => (['-'], r)
    | _ => ([], cs)
  match parseIntPart cs1 with
  | none => none
  | some (ip, cs2) =>
    match parseFracPart cs2 with
    | none => none
    | some (fp, cs3) =>
      match parseExpPart cs3 with
      | none => none
      | some (ep, cs4) => some (sign ++ ip ++ fp ++ ep, cs4)

def hexDigitVal (c : Char) : Option Nat :=
  if 48 ≤ c.toNat && c.toNat ≤ 57 then some (c.toNat - 48)
  else if 97 ≤ c.toNat && c.toNat ≤ 102 then some (c.toNat - 87)
  else if 65 ≤ c.toNat && c.toNat ≤ 70 then some (c.toNat - 55)
  else none

/-- Body of a JSON string after the opening quote: plain characters
(controls below 0x20 are rejected) and the JSON escapes.  Lone-surrogate
escapes, which a JavaScript string could hold, fall back through
Char.ofNat; no property here depends on them. -/
def parseStringBody : List Char → Option (List Char × List Char)
  | [] => none
  | c :: rest =>
    if c = '"' then some ([], rest)
    else if c = '\\' then
      match rest with
      | '"' :: r => (parseStringBody r).map fun (s, t) => ('"' :: s, t)
      | '\\' :: r => (parseStringBody r).map fun (s, t) => ('\\' :: s, t)
      | '/' :: r => (parseStringBody r).map fun (s, t) => ('/' :: s, t)
      | 'b' :: r => (parseStringBody r).map fun (s, t) => ('\x08' :: s, t)
      | 'f' :: r => (parseStringBody r).map fun (s, t) => ('\x0c' :: s, t)
      | 'n' :: r => (parseStringBody r).map fun (s, t) => ('\n' :: s, t)
      | 'r' :: r => (parseStringBody r).map fun (s, t) => ('\r' :: s, t)
      | 't' :: r => (parseStringBody r).map fun (s, t) => ('\t' :: s, t)
      | 'u' :: h1 :: h2 :: h3 :: h4 :: r =>
        match hexDigitVal h1, hexDigitVal h2, hexDigitVal h3, hexDigitVal h4 with
        | some v1, some v2, some v3, some v4 =>
          (parseStringBody r).map fun (s, t) =>
            (Char.ofNat (((v1 * 16 + v2) * 16 + v3) * 16 + v4) :: s, t)
        | _, _, _, _ => none
      | _ => none
    else if c.toNat < 32 then none
    else (parseStringBody rest).map fun (s, t) => (c :: s, t)

/-- JavaScript object-property assignment on a property list: an existing
key keeps its position and takes the new value, a new key is appended.
This is both how JSON.parse treats duplicate keys (last value wins, first
position kept) and what a plain property assignment does. -/
def objInsert : List (String × Json) → String → Json → List (String × Json)
  | [], k, v => [(k, v)]
  | (k1, v1) :: rest, k, v =>
    if k1 = k then (k1, v) :: rest else (k1, v1) :: objInsert rest k v

mutual

/-- JSON value parsing, modelling JSON.parse.  The fuel argument only
forces termination; parseJsonText supplies enough for any input. -/
def parseValue : Nat → List Char → Option (Json × List Char)
  | 0, _ => none
  | Nat.succ fuel, cs =>
    match skipWs cs with
    | 'n' :: 'u' :: 'l' :: 'l' :: rest => some (.null, rest)
    | 't' :: 'r' :: 'u' :: 'e' :: rest => some (.bool true, rest)
    | 'f' :: 'a' :: 'l' :: 's' :: 'e' :: rest => some (.bool false, rest)
    | '"' :: rest => (parseStringBody rest).map fun (s, t) => (.str (String.mk s), t)
    | '[' :: rest =>
      match skipWs rest with
      | [] => parseElems fuel [] []
      | c :: r2 =>
        if c = ']' then some (.arr [], r2) else parseElems fuel (c :: r2) []
    | '{' :: rest =>
      match skipWs rest with
      | [] => parseMembers fuel [] []
      | c :: r2 =>
        if c = '}' then some (.obj [], r2) else parseMembers fuel (c :: r2) []
    | cs2 => (parseNumberTok cs2).map fun (tok, rest) => (.num (String.mk tok), rest)

/-- Members of a JSON object after the opening brace (nonempty case). -/
def parseMembers : Nat → List Char → List (String × Json) → Option (Json × List Char)
  | 0, _, _ => none
  | Nat.succ fuel, cs, acc =>
    match skipWs cs with
    | [] => none
    | c :: rest =>
      if c = '"' then
        match parseStringBody rest with
        | none => none
        | some (k, r1) =>
          match skipWs r1 with
          | [] => none
          | c2 :: r2 =>
            if c2 = ':' then
              match parseValue fuel r2 with
              | none => none
              | some (v, r3) =>
                match skipWs r3 with
                | [] => none
                | c3 :: r4 =>
                  if c3 = ',' then parseMembers fuel r4 (objInsert acc (String.mk k) v)
                  else if c3 = '}' then some (.obj (objInsert acc (String.mk k) v), r4)
                  else none
            else none
      else none

/-- Elements of a JSON array after the opening bracket (nonempty case). -/
def parseElems : Nat → List Char → List Json → Option (Json × List Char)
  | 0, _, _ => none
  | Nat.succ fuel, cs, acc =>
    match parseValue fuel cs with
    | none => none
    | some (v, r) =>
      match skipWs r with
      | [] => none
      | c :: r2 =>
        if c = ',' then parseElems fuel r2 (acc ++ [v])
        else if c = ']' then some (.arr (acc ++ [v]), r2)
        else none

end

/-- JSON.parse on a whole text: one value, surrounded only by JSON
whitespace.  The fuel bound 2 * length + 2 covers the worst case of two
recursive entries per consumed character. -/
def parseJsonText (s : String) : Option Json :=
  match parseValue (2 * s.data.length + 2) s.data with
  | some (v, rest) => if skipWs rest = [] then some v else none
  | none => none

/-- The targeted repair in the stdout line handler:
line.replace with pattern comma, regex whitespace, closing brace, end of
input, replaced by space and closing brace.  The pattern is anchored at
the end, and any match must start at the comma adjacent to the maximal
trailing whitespace run (whitespace cannot contain a comma), so the
leftmost match is that unique suffix when it exists. -/
def repairLine (s : String) : String :=
  match s.data.reverse with
  | [] => s
  | c :: revRest =>
    if c = '}' then
      match revRest.dropWhile isJsRegexWs with
      | [] => s
      | c2 :: revHead =>
        if c2 = ',' then String.mk (revHead.reverse ++ [' ', '}']) else s
    else s

/-- Field lookup on a decoded record, modelling JavaScript property
access (the undefined test in the line handler is lookupField = none). -/
def lookupField (kvs : List (String × Json)) (k : String) : Option Json :=
  match kvs with
  | [] => none
  | (k1, v1) :: rest => if k1 = k then some v1 else lookupField rest k

/-- The two defaulting assignments in the line handler: MESSAGE and then
_HOSTNAME are set to the empty string when absent. -/
def normalizeRecord (kvs : List (String × Json)) : List (String × Json) :=
  let r1 := if (lookupField kvs "MESSAGE").isNone
            then objInsert kvs "MESSAGE" (.str "") else kvs
  if (lookupField r1 "_HOSTNAME").isNone
  then objInsert r1 "_HOSTNAME" (.str "") else r1

/-- The stdout line handler: repair, JSON.parse, defaulting.  A parse
failure is the error path (Could not parse JSON).  A non-object parse
result also ends on the error path: the class body runs in strict mode,
so the MESSAGE property assignment on a primitive throws and is caught
by the same catch block (journald emits one JSON object per line, never
a bare array, so the array case is folded into the error path too). -/
def decodeLine (line : String) : Option (List (String × Json)) :=
  match parseJsonText (repairLine line) with
  | some (.obj kvs) => some (normalizeRecord kvs)
  | _ => none

/-!  Option validators (single functions at the top of JournalCtl.ts).
Errors model thrown exceptions via Except. -/

def isFieldNameChar (c : Char) : Bool :=
  (65 ≤ c.toNat && c.toNat ≤ 90) || isDigitCh c || c = '_'

/-- validateFieldName: the field name must match the anchored character
class of capital letters, digits and underscore, nonempty. -/
def validateFieldName (s : String) : Except String String :=
  if !s.data.isEmpty && s.data.all isFieldNameChar then .ok s
  else .error ("Not a valid journald Field Name: \"" ++ s ++ "\"")

/-- validateSyslogIdentifier: one or more non-whitespace characters. -/
def validateSyslogIdentifier (s : String) : Except String String :=
  if !s.data.isEmpty && s.data.all (fun c => !isJsRegexWs c) then .ok s
  else .error ("Not a valid SYSLOG_IDENTIFIER: \"" ++ s ++ "\"")

def isUnitChar (c : Char) : Bool :=
  (65 ≤ c.toNat && c.toNat ≤ 90) || (97 ≤ c.toNat && c.toNat ≤ 122) ||
  isDigitCh c || c = ':' || c = '-' || c = '_' || c = '.' || c = '\\'

/-- validateUnit: one or more characters from the systemd unit name
character class. -/
def validateUnit (s : String) : Except String String :=
  if !s.data.isEmpty && s.data.all isUnitChar then .ok s
  else .error ("Not a valid systemd unit name: \"" ++ s ++ "\"")

/-- The date regular expression of validateDate: four digits, dash, two
digits, dash, two digits, then optionally space and two digits, colon,
two digits, then optionally colon and two digits. -/
def isDateFormat (s : String) : Bool :=
  match s.data with
  | [y1, y2, y3, y4, '-', m1, m2, '-', d1, d2] =>
    isDigitCh y1 && isDigitCh y2 && isDigitCh y3 && isDigitCh y4 &&
    isDigitCh m1 && isDigitCh m2 && isDigitCh d1 && isDigitCh d2
  | [y1, y2, y3, y4, '-', m1, m2, '-', d1, d2, ' ', h1, h2, ':', n1, n2] =>
    isDigitCh y1 && isDigitCh y2 && isDigitCh y3 && isDigitCh y4 &&
    isDigitCh m1 && isDigitCh m2 && isDigitCh d1 && isDigitCh d2 &&
    isDigitCh h1 && isDigitCh h2 && isDigitCh n1 && isDigitCh n2
  | [y1, y2, y3, y4, '-', m1, m2, '-', d1, d2, ' ', h1, h2, ':', n1, n2, ':', s1, s2] =>
    isDigitCh y1 && isDigitCh y2 && isDigitCh y3 && isDigitCh y4 &&
    isDigitCh m1 && isDigitCh m2 && isDigitCh d1 && isDigitCh d2 &&
    isDigitCh h1 && isDigitCh h2 && isDigitCh n1 && isDigitCh n2 &&
    isDigitCh s1 && isDigitCh s2
  | _ => false

def isLeapYear (y : Int) : Bool := (y % 4 = 0 && y % 100 ≠ 0) || y % 400 = 0

def daysInMonth (y m : Int) : Int :=
  if m = 1 then 31 else if m = 2 then (if isLeapYear y then 29 else 28)
  else if m = 3 then 31 else if m = 4 then 30 else if m = 5 then 31
  else if m = 6 then 30 else if m = 7 then 31 else if m = 8 then 31
  else if m = 9 then 30 else if m = 10 then 31 else if m = 11 then 30
  else 31

/-- Days from the epoch for a civil date (proleptic Gregorian). -/
def daysFromCivil (y m d : Int) : Int :=
  let y2 := if m ≤ 2 then y - 1 else y
  let era := y2.fdiv 400
  let yoe := y2 - era * 400
  let doy := ((153 * (m + (if 2 < m then -3 else 9)) + 2).fdiv 5) + d - 1
  let doe := yoe * 365 + yoe.fdiv 4 - yoe.fdiv 100 + doy
  era * 146097 + doe - 719468

/-- Civil date from days since the epoch (inverse of daysFromCivil). -/
def civilFromDays (z : Int) : Int × Int × Int :=
  let z2 := z + 719468
  let era := z2.fdiv 146097
  let doe := z2 - era * 146097
  let yoe := (doe - doe.fdiv 1460 + doe.fdiv 36524 - doe.fdiv 146096).fdiv 365
  let y0 := yoe + era * 400
  let doy := doe - (365 * yoe + yoe.fdiv 4 - yoe.fdiv 100)
  let mp := (5 * doy + 2).fdiv 153
  let d := doy - (153 * mp + 2).fdiv 5 + 1
  let m := if mp < 10 then mp + 3 else mp - 9
  (if m ≤ 2 then y0 + 1 else y0, m, d)

def digitVal (c : Char) : Int := c.toNat - 48

def digits2 (a b : Char) : Option Int :=
  if isDigitCh a && isDigitCh b then some (digitVal a * 10 + digitVal b) else none

def digits4 (a b c d : Char) : Option Int :=
  if isDigitCh a && isDigitCh b && isDigitCh c && isDigitCh d then
    some (((digitVal a * 10 + digitVal b) * 10 + digitVal c) * 10 + digitVal d)
  else none

/-- Epoch milliseconds for validated calendar components, or none for an
out-of-range (NaN) date.  The model evaluates date-time strings as UTC;
the JavaScript engine would use the local zone for the space-separated
date-time form, which shifts every parsed value by one constant offset
and never changes the outcome of a since/until comparison. -/
def dateComponentsMillis (y m d hh mi ss : Int) : Option Int :=
  if 1 ≤ m ∧ m ≤ 12 ∧ 1 ≤ d ∧ d ≤ daysInMonth y m ∧
     0 ≤ hh ∧ hh ≤ 23 ∧ 0 ≤ mi ∧ mi ≤ 59 ∧ 0 ≤ ss ∧ ss ≤ 59 then
    some ((daysFromCivil y m d * 86400 + hh * 3600 + mi * 60 + ss) * 1000)
  else none

/-- The time value of new Date applied to a string of the validated
format: none models an Invalid Date (NaN time value). -/
def jsDateParse (s : String) : Option Int :=
  match s.data with
  | [y1, y2, y3, y4, '-', m1, m2, '-', d1, d2] =>
    match digits4 y1 y2 y3 y4, digits2 m1 m2, digits2 d1 d2 with
    | some y, some m, some d => dateComponentsMillis y m d 0 0 0
    | _, _, _ => none
  | [y1, y2, y3, y4, '-', m1, m2, '-', d1, d2, ' ', h1, h2, ':', n1, n2] =>
    match digits4 y1 y2 y3 y4, digits2 m1 m2, digits2 d1 d2, digits2 h1 h2, digits2 n1 n2 with
    | some y, some m, some d, some hh, some mi => dateComponentsMillis y m d hh mi 0
    | _, _, _, _, _ => none
  | [y1, y2, y3, y4, '-', m1, m2, '-', d1, d2, ' ', h1, h2, ':', n1, n2, ':', s1, s2] =>
    match digits4 y1 y2 y3 y4, digits2 m1 m2, digits2 d1 d2, digits2 h1 h2,
          digits2 n1 n2, digits2 s1 s2 with
    | some y, some m, some d, some hh, some mi, some ss => dateComponentsMillis y m d hh mi ss
    | _, _, _, _, _, _ => none
  | _ => none

/-- validateDate: the string must match the date regular expression and
must have a non-NaN time value under new Date. -/
def validateDate (s : String) : Except String String :=
  if !isDateFormat s then .error ("Not a valid date: \"" ++ s ++ "\"")
  else if (jsDateParse s).isNone then .error ("Not a valid date: \"" ++ s ++ "\"")
  else .ok s

/-- A JavaScript number in an options field: a finite rational or NaN
(infinities, which fail the same integer check as non-integers, are not
distinguished here). -/
inductive JsNum where
  | num (q : ℚ) : JsNum
  | nan : JsNum

/-- validatePositiveInteger: Number.isInteger and not NaN, then not
negative; returns the integer value. -/
def validatePositiveInteger (v : JsNum) : Except String Int :=
  match v with
  | .nan => .error "Not an integer: NaN"
  | .num q =>
    if q.den ≠ 1 then .error ("Not an integer: " ++ toString q)
    else if q.num < 0 then .error ("Not a positive integer: " ++ toString q)
    else .ok q.num

/-- validatePriority: positive-integer check, then the 0..7 bound. -/
def validatePriority (p : JsNum) : Except String Int := do
  let n ← validatePositiveInteger p
  if n < 0 || 7 < n then .error ("Not a valid priority: " ++ toString n)
  else .ok n

/-- A since/until option value: either a date string, or a Date object
modelled by its epoch-millisecond time value (none is an Invalid Date,
whose toISOString call throws). -/
inductive DateInput where
  | str (s : String) : DateInput
  | date (t : Option Int) : DateInput

/-- Truthiness of an optional since/until value: absent and the empty
string are falsy; every Date object, Invalid or not, is truthy. -/
def truthyDateOpt : Option DateInput → Bool
  | none => false
  | some (.str s) => !s.isEmpty
  | some (.date _) => true

def pad2 (n : Int) : String := if n < 10 then "0" ++ toString n else toString n

def pad4 (n : Int) : String :=
  if n < 10 then "000" ++ toString n
  else if n < 100 then "00" ++ toString n
  else if n < 1000 then "0" ++ toString n
  else toString n

/-- The argument string built from a Date object: toISOString with the
letter T and the millisecond-Z suffix replaced by spaces, trimmed. -/
def dateToArgString (t : Int) : String :=
  let days := t.fdiv 86400000
  let ms := t - days * 86400000
  let secs := ms.fdiv 1000
  let hh := secs.fdiv 3600
  let mi := (secs.fdiv 60) % 60
  let ss := secs % 60
  let c := civilFromDays days
  pad4 c.1 ++ "-" ++ pad2 c.2.1 ++ "-" ++ pad2 c.2.2 ++ " " ++
  pad2 hh ++ ":" ++ pad2 mi ++ ":" ++ pad2 ss

/-- The argument text of one since/until value: strings are validated,
Date objects are formatted (throwing on an Invalid Date). -/
def dateArgString : DateInput → Except String String
  | .str s => validateDate s
  | .date (some t) => .ok (dateToArgString t)
  | .date none => .error "Invalid time value"

/-- The time value used by the since/until comparison (new Date on the
string form, getTime on a Date object); none models NaN. -/
def dateTimeValue : Option DateInput → Option Int
  | none => none
  | some (.str s) => jsDateParse s
  | some (.date t) => t

/-- The priority option: a single level or a from/to range object. -/
inductive PriorityInput where
  | single (p : JsNum) : PriorityInput
  | range (pFrom pTo : JsNum) : PriorityInput

/-- The JournalCtlOptions object.  The all field models the truthiness
of the show-all flag; filter keeps the key insertion order of the
JavaScript object; untilOpt is the until field of the source (until is
a reserved word here). -/
structure JournalCtlOptions where
  all : Bool := false
  lines : Option JsNum := none
  since : Option DateInput := none
  untilOpt : Option DateInput := none
  identifier : Option String := none
  unit : Option String := none
  filter : Option (List (String × String)) := none
  priority : Option PriorityInput := none

/-!  Argument construction, one definition per constructor step, in the
exact source order; buildArgs concatenates them after the fixed prefix
-o json. -/

/-- Step 1: a truthy until pushes -U and the date text; otherwise -f. -/
def untilStep (o : JournalCtlOptions) : Except String (List String) :=
  match o.untilOpt with
  | some (.str s) =>
    if s.isEmpty then .ok ["-f"]
    else do
      let ds ← validateDate s
      .ok ["-U", ds]
  | some (.date t) => do
    let ds ← dateArgString (.date t)
    .ok ["-U", ds]
  | none => .ok ["-f"]

/-- Step 2: the show-all flag. -/
def allStep (o : JournalCtlOptions) : List String :=
  if o.all then ["-a"] else []

/-- Step 3: -n 10 when neither until nor since is truthy and lines is
undefined; otherwise -n with the validated explicit value when lines is
defined; otherwise nothing. -/
def linesStep (o : JournalCtlOptions) : Except String (List String) :=
  match o.lines with
  | none =>
    if !truthyDateOpt o.untilOpt && !truthyDateOpt o.since then .ok ["-n", "10"]
    else .ok []
  | some v => do
    let n ← validatePositiveInteger v
    .ok ["-n", toString n]

/-- Step 4: a truthy since pushes -S and the date text. -/
def sinceStep (o : JournalCtlOptions) : Except String (List String) :=
  match o.since with
  | some (.str s) =>
    if s.isEmpty then .ok []
    else do
      let ds ← validateDate s
      .ok ["-S", ds]
  | some (.date t) => do
    let ds ← dateArgString (.date t)
    .ok ["-S", ds]
  | none => .ok []

/-- Step 5: when both since and until are truthy, compare their time
values and throw when since is strictly later (a NaN on either side
makes the comparison false, hence no throw). -/
def sinceUntilCheck (o : JournalCtlOptions) : Except String Unit :=
  if truthyDateOpt o.since && truthyDateOpt o.untilOpt then
    match dateTimeValue o.since, dateTimeValue o.untilOpt with
    | some tS, some tU =>
      if tU < tS then .error "Since date can not be more recent than Until date."
      else .ok ()
    | _, _ => .ok ()
  else .ok ()

/-- Step 6: the priority option; a range is rendered from..to with each
bound validated separately and no ordering check. -/
def priorityStep (o : JournalCtlOptions) : Except String (List String) :=
  match o.priority with
  | none => .ok []
  | some (.single p) => do
    let n ← validatePriority p
    .ok ["-p", toString n]
  | some (.range pf pt) => do
    let nf ← validatePriority pf
    let nt ← validatePriority pt
    .ok ["-p", toString nf ++ ".." ++ toString nt]

/-- Step 7: the syslog identifier, gated on definedness (the empty
string is defined and fails validation). -/
def identifierStep (o : JournalCtlOptions) : Except String (List String) :=
  match o.identifier with
  | none => .ok []
  | some s => do
    let i ← validateSyslogIdentifier s
    .ok ["-t", i]

/-- Step 8: the unit name, gated on truthiness (the empty string is
falsy and skipped, never validated). -/
def unitStep (o : JournalCtlOptions) : Except String (List String) :=
  match o.unit with
  | none => .ok []
  | some s =>
    if s.isEmpty then .ok []
    else do
      let u ← validateUnit s
      .ok ["-u", u]

/-- The for-in loop over the filter object: one KEY=value token per
entry, each key validated before its token is pushed. -/
def filterTokens : List (String × String) → Except String (List String)
  | [] => .ok []
  | kv :: rest => do
    let k ← validateFieldName kv.1
    let others ← filterTokens rest
    .ok ((k ++ "=" ++ kv.2) :: others)

/-- Step 9: one KEY=value token per filter entry, keys validated in
order. -/
def filterStep (o : JournalCtlOptions) : Except String (List String) :=
  match o.filter with
  | none => .ok []
  | some kvs => filterTokens kvs

/-- The forEach loop over the explicit output fields: a repeatable
output-field request per validated name. -/
def outputFieldTokens : List String → Except String (List String)
  | [] => .ok []
  | f :: rest => do
    let n ← validateFieldName f
    let others ← outputFieldTokens rest
    .ok ("--output-field" :: n :: others)

/-- Step 10: explicit output fields, each validated, then the forced
MESSAGE, SYSLOG_IDENTIFIER and _HOSTNAME requests when missing from the
list (an empty list is truthy and still forces the three). -/
def outputFieldsStep (outputFields : Option (List String)) : Except String (List String) :=
  match outputFields with
  | none => .ok []
  | some fs => do
    let toks ← outputFieldTokens fs
    let e1 := if fs.contains "MESSAGE" then [] else ["--output-field", "MESSAGE"]
    let e2 := if fs.contains "SYSLOG_IDENTIFIER" then [] else ["--output-field", "SYSLOG_IDENTIFIER"]
    let e3 := if fs.contains "_HOSTNAME" then [] else ["--output-field", "_HOSTNAME"]
    .ok (toks ++ e1 ++ e2 ++ e3)

/-- The complete argument list built by the constructor before spawning
journalctl, or the constructor-time error that prevents the spawn. -/
def buildArgs (o : JournalCtlOptions) (outputFields : Option (List String)) :
    Except String (List String) := do
  let a1 ← untilStep o
  let a2 := allStep o
  let a3 ← linesStep o
  let a4 ← sinceStep o
  let _ ← sinceUntilCheck o
  let a5 ← priorityStep o
  let a6 ← identifierStep o
  let a7 ← unitStep o
  let a8 ← filterStep o
  let a9 ← outputFieldsStep outputFields
  .ok (["-o", "json"] ++ a1 ++ a2 ++ a3 ++ a4 ++ a5 ++ a6 ++ a7 ++ a8 ++ a9)

/-- childProcess.spawn sits directly after argument construction: the
subprocess is spawned exactly when no constructor step threw. -/
def constructorSpawns (o : JournalCtlOptions) (outputFields : Option (List String)) : Bool :=
  (buildArgs o outputFields).toBool

/-!  The emission channel and the pull-mode generator. -/

/-- The three signal kinds of the emitter: message with a decoded
record, error with its message text, and the terminal exit signal. -/
inductive Signal where
  | message (r : List (String × Json)) : Signal
  | error (msg : String) : Signal
  | exit : Signal

/-- The signal emitted for one stdout line: the decoded record, or the
decode error identifying the raw line. -/
def lineSignal (line : String) : Signal :=
  match decodeLine line with
  | some r => .message r
  | none => .error ("Could not parse JSON: " ++ line)

/-- The accumulated standard-error text at exit time: the field starts
as the empty string and appends every chunk, so it is never null once
the handlers are attached. -/
def accumulatedStdErr (chunks : List String) : Option String :=
  some (chunks.foldl (fun a c => a ++ c) "")

/-- Truthiness of the exit code in the exit handler: null (killed by a
signal) and zero are falsy. -/
def exitTruthy : Option Int → Bool
  | none => false
  | some c => c != 0

/-- The template text of the dead nullish-coalescing fallback in the
exit handler. -/
def genericExitMsg (code : Option Int) : String :=
  "Process exited with code " ++ (match code with | some c => toString c | none => "null")

/-- The exit handler: on a truthy code, an error signal whose message is
the nullish-coalescing of the accumulated standard-error text and the
generic message, then always the exit signal. -/
def exitSignals (code : Option Int) (stdErrText : Option String) : List Signal :=
  (if exitTruthy code then [Signal.error (stdErrText.getD (genericExitMsg code))] else []) ++
  [Signal.exit]

/-- One run of the subprocess: the complete stdout lines, the exit code
(none models a null code from a signal kill), and the standard-error
chunks, all of which arrive before the exit event. -/
structure Run where
  lines : List String
  exitCode : Option Int
  stderrChunks : List String

/-- The full signal sequence of a run, in emission order: one signal per
line, then the exit-handler signals. -/
def runSignals (r : Run) : List Signal :=
  r.lines.map lineSignal ++ exitSignals r.exitCode (accumulatedStdErr r.stderrChunks)

/-- The record sequence a push-mode subscriber attached from the start
receives: the payloads of the message signals, in order. -/
def pushRecords (sigs : List Signal) : List (List (String × Json)) :=
  sigs.filterMap fun s => match s with
    | .message r => some r
    | _ => none

/-!  The generator of createGenerator, modelled by its promise queue.  A
slot is one promise in messagePromises: none is pending, some v is
resolved with v, where v = none models resolution with undefined.  The
resolve variable always designates the slot created last; resolving an
already-resolved slot is a silent no-op, exactly as calling a stale
resolve function is. -/

structure GenState where
  slots : List (Option (Option (List (String × Json))))
  ptr : Nat

/-- Resolve the slot at index i when it is still pending; a second
resolution of the same promise has no effect. -/
def resolveSlot (slots : List (Option (Option (List (String × Json)))))
    (i : Nat) (v : Option (List (String × Json))) :
    List (Option (Option (List (String × Json)))) :=
  match slots.get? i with
  | some none => slots.set i (some v)
  | _ => slots

/-- The generator body creates one pending promise before subscribing. -/
def genInit : GenState := { slots := [none], ptr := 0 }

/-- The three handlers the generator subscribes: a message stores the
old resolve, pushes a fresh pending promise, and resolves the old slot
with the record; error and exit resolve the current slot with
undefined and push nothing. -/
def genStep (st : GenState) (s : Signal) : GenState :=
  match s with
  | .message r =>
    let oldPtr := st.ptr
    let slots1 := st.slots ++ [none]
    { slots := resolveSlot slots1 oldPtr (some r), ptr := st.slots.length }
  | .error _ => { st with slots := resolveSlot st.slots st.ptr none }
  | .exit => { st with slots := resolveSlot st.slots st.ptr none }

/-- The generator state after a signal sequence, for a generator whose
first draw happened before the first signal. -/
def runGen (sigs : List Signal) : GenState := sigs.foldl genStep genInit

/-- The yield loop: shift promises in order and yield while each awaited
value is a record; a promise resolved with undefined ends the loop (and
a still-pending promise never resolves, so nothing past it is ever
yielded). -/
def yieldedRecords : List (Option (Option (List (String × Json)))) →
    List (List (String × Json))
  | some (some r) :: rest => r :: yieldedRecords rest
  | _ => []

/-- The record sequence the pull-mode generator yields over a signal
sequence. -/
def pullRecords (sigs : List Signal) : List (List (String × Json)) :=
  yieldedRecords (runGen sigs).slots

/-!  Instance state for the one-generator-per-instance protocol. -/

/-- The per-instance state the generator protocol reads: the
generatorInstanceExtists flag (spelling from the source), set to false
at the end of the constructor. -/
structure InstanceState where
  generatorInstanceExtists : Bool

def initialInstance : InstanceState := { generatorInstanceExtists := false }

/-- The opaque AsyncGenerator object a call to createGenerator returns. -/
structure GeneratorHandle where

/-- Calling createGenerator: an async generator function defers its body
until the first next call, so the call itself runs no code of the body,
changes no state, and cannot throw; it only allocates the generator
object. -/
def createGenerator (s : InstanceState) : InstanceState × GeneratorHandle :=
  (s, {})

def oneGeneratorMsg : String :=
  "Only one instance of the async message generator can be created per JournalCtl instance."

/-- The prologue of the generator body, executed at the first next call:
throw when a generator already exists on this instance, otherwise set
the flag. -/
def generatorStart (s : InstanceState) : Except String InstanceState :=
  if s.generatorInstanceExtists then .error oneGeneratorMsg
  else .ok { generatorInstanceExtists := true }

/-!  Rendered journald lines for the trailing-comma property: a flat
object of string fields, exactly the shape the upstream emitter writes,
with and without the stray trailing comma. -/

/-- A field text that needs no JSON string escaping: no quote, no
backslash, no control character. -/
def fieldClean (s : String) : Bool :=
  s.data.all fun c => c ≠ '"' && c ≠ '\\' && 32 ≤ c.toNat

/-- The characters of one rendered key-value member. -/
def kvChars (k v : String) : List Char :=
  '"' :: (k.data ++ '"' :: ':' :: '"' :: (v.data ++ ['"']))

/-- The characters of a comma-separated member list. -/
def membersChars : List (String × String) → List Char
  | [] => []
  | [kv] => kvChars kv.1 kv.2
  | kv :: rest => kvChars kv.1 kv.2 ++ ',' :: membersChars rest

/-- The record JSON.parse builds from the rendered members. -/
def buildRecJson (kvs : List (String × String)) : List (String × Json) :=
  kvs.foldl (fun a kv => objInsert a kv.1 (.str kv.2)) []

/-- The syntactically correct rendered line. -/
def renderObjLine (kvs : List (String × String)) : String :=
  String.mk ('{' :: (membersChars kvs ++ ['}']))

/-- The rendered line with the upstream defect: a stray comma, then
whitespace, immediately before the closing brace. -/
def renderTrailingLine (kvs : List (String × String)) (ws : String) : String :=
  String.mk ('{' :: (membersChars kvs ++ ',' :: (ws.data ++ ['}'])))

/-!  Concrete inputs used by counterexamples and witnesses. -/

/-- A well-formed journald output line with one field. -/
def sampleLine : String := "\x7b\"A\":\"b\"\x7d"

/-- The record sampleLine decodes to. -/
def sampleRecord : List (String × Json) :=
  [("A", .str "b"), ("MESSAGE", .str ""), ("_HOSTNAME", .str "")]

/-- A run whose first line is malformed and whose second line is valid,
ending in a clean exit. -/
def divergingRun : Run :=
  { lines := ["x", sampleLine], exitCode := some 0, stderrChunks := [] }

/-- A run of one valid line and a clean exit. -/
def cleanRun : Run :=
  { lines := [sampleLine], exitCode := some 0, stderrChunks := [] }

/-- A journald line carrying the four journal-address fields and nothing
else, as a kernel message without a syslog identifier produces. -/
def addressOnlyLine : String :=
  "\x7b\"__CURSOR\":\"c\",\"__REALTIME_TIMESTAMP\":\"1\",\"__MONOTONIC_TIMESTAMP\":\"2\",\"_BOOT_ID\":\"b\"\x7d"

/-- The record addressOnlyLine decodes to. -/
def addressOnlyRecord : List (String × Json) :=
  [("__CURSOR", .str "c"), ("__REALTIME_TIMESTAMP", .str "1"),
   ("__MONOTONIC_TIMESTAMP", .str "2"), ("_BOOT_ID", .str "b"),
   ("MESSAGE", .str ""), ("_HOSTNAME", .str "")]

/-- Options with a since date one day later than the until date. -/
def reversedRangeOptions : JournalCtlOptions :=
  { since := some (.str "2020-01-02"), untilOpt := some (.str "2020-01-01") }

/-- Defaulting one field to the empty string when absent, the shape of
each of the two assignments in normalizeRecord. -/
def defaultField (key : String) (l : List (String × Json)) : List (String × Json) :=
  if (lookupField l key).isNone then objInsert l key (.str "") else l

/-!  Helper lemmas. -/

lemma exceptBindOk {α β : Type} (a : α) (f : α → Except String β) :
    ((Except.ok a : Except String α) >>= f) = f a := rfl

lemma lookupField_objInsert_self (kvs : List (String × Json)) (k : String) (v : Json) :
    lookupField (objInsert kvs k v) k = some v := by
  induction kvs with
  | nil => simp [objInsert, lookupField]
  | cons kv rest ih =>
    obtain ⟨k1, v1⟩ := kv
    by_cases h1 : k1 = k
    · simp [objInsert, lookupField, h1]
    · simp [objInsert, lookupField, h1, ih]

lemma lookupField_objInsert_other (kvs : List (String × Json)) (k k2 : String) (v : Json)
    (h : k2 ≠ k) : lookupField (objInsert kvs k v) k2 = lookupField kvs k2 := by
  have hks : ¬ (k = k2) := fun hh => h hh.symm
  induction kvs with
  | nil => simp [objInsert, lookupField, hks]
  | cons kv rest ih =>
    obtain ⟨k1, v1⟩ := kv
    by_cases h1 : k1 = k
    · have h12 : ¬ (k1 = k2) := by rw [h1]; exact hks
      simp [objInsert, lookupField, h1, h12, hks]
    · by_cases h2 : k1 = k2
      · simp [objInsert, lookupField, h1, h2, hks, h]
      · simp [objInsert, lookupField, h1, h2, ih]

lemma normalizeRecord_eq_defaults (kvs : List (String × Json)) :
    normalizeRecord kvs = defaultField "_HOSTNAME" (defaultField "MESSAGE" kvs) := rfl

lemma lookupField_defaultField_self (l : List (String × Json)) (key : String) :
    lookupField (defaultField key l) key = some ((lookupField l key).getD (.str "")) := by
  unfold defaultField
  cases h : lookupField l key with
  | none => simp [h, lookupField_objInsert_self]
  | some v => simp [h]

lemma lookupField_defaultField_other (l : List (String × Json)) (key k2 : String)
    (h : k2 ≠ key) : lookupField (defaultField key l) k2 = lookupField l k2 := by
  unfold defaultField
  cases hk : lookupField l key with
  | none => simp [hk, lookupField_objInsert_other _ _ _ _ h]
  | some v => simp [hk]

/-- Claim C5: for every line whose repaired text parses as an object,
the delivered record is the parsed record with MESSAGE and _HOSTNAME
each equal to the parsed value when present and the empty string when
absent, and every other field unchanged. -/
theorem c5_message_hostname_defaulting (line : String) (kvs : List (String × Json))
    (h : parseJsonText (repairLine line) = some (.obj kvs)) :
    decodeLine line = some (normalizeRecord kvs) ∧
    lookupField (normalizeRecord kvs) "MESSAGE" =
      some ((lookupField kvs "MESSAGE").getD (.str "")) ∧
    lookupField (normalizeRecord kvs) "_HOSTNAME" =
      some ((lookupField kvs "_HOSTNAME").getD (.str "")) ∧
    ∀ k, k ≠ "MESSAGE" → k ≠ "_HOSTNAME" →
      lookupField (normalizeRecord kvs) k = lookupField kvs k := by
  refine ⟨by simp [decodeLine, h], ?_, ?_, ?_⟩
  · rw [normalizeRecord_eq_defaults,
        lookupField_defaultField_other _ _ _ (by decide : ("MESSAGE" : String) ≠ "_HOSTNAME"),
        lookupField_defaultField_self]
  · rw [normalizeRecord_eq_defaults, lookupField_defaultField_self,
        lookupField_defaultField_other _ _ _ (by decide : ("_HOSTNAME" : String) ≠ "MESSAGE")]
  · intro k hkm hkh
    rw [normalizeRecord_eq_defaults, lookupField_defaultField_other _ _ _ hkh,
        lookupField_defaultField_other _ _ _ hkm]

/-- Witness for C5 at a concrete line carrying neither MESSAGE nor
_HOSTNAME. -/
theorem c5_witness :
    decodeLine sampleLine = some sampleRecord ∧
    lookupField sampleRecord "MESSAGE" = some (.str "") ∧
    lookupField sampleRecord "A" = some (.str "b") := by
  have h := c5_message_hostname_defaulting sampleLine [("A", .str "b")] rfl
  exact ⟨h.1, rfl, rfl⟩

/-- Counterexample for claim C2: after the first generator on an
instance has started, a second createGenerator call still returns a
generator object without any error and without touching the instance;
the rejection only appears when the second sequence is first advanced,
not at the creation call itself. -/
theorem c2_counterexample :
    generatorStart initialInstance = .ok { generatorInstanceExtists := true } ∧
    createGenerator { generatorInstanceExtists := true } =
      ({ generatorInstanceExtists := true }, {}) ∧
    generatorStart { generatorInstanceExtists := true } = .error oneGeneratorMsg :=
  ⟨rfl, rfl, rfl⟩

/-- Claim C2 as amended: on an instance that already has a generator, a
second creation attempt returns a generator handle with no error and no
state change, and the failure is raised at the first draw from that
second sequence (leaving the instance state, and hence the first
sequence, undisturbed). -/
theorem c2_amended (s : InstanceState) (h : s.generatorInstanceExtists = true) :
    createGenerator s = (s, {}) ∧ generatorStart s = .error oneGeneratorMsg := by
  refine ⟨rfl, ?_⟩
  simp [generatorStart, h]

/-- Witness for c2_amended at the flagged instance state. -/
theorem c2_amended_witness :
    createGenerator { generatorInstanceExtists := true } =
      ({ generatorInstanceExtists := true }, {}) ∧
    generatorStart { generatorInstanceExtists := true } = .error oneGeneratorMsg :=
  c2_amended { generatorInstanceExtists := true } rfl

/-- Claim C3, evaluated at the failing input: a subprocess exit with
code 1 and empty accumulated standard error emits the error signal with
the empty message, not the generic process-exited message, because the
nullish-coalescing fallback never fires on the empty string.  The
error-then-exit pairing itself holds. -/
theorem c3_empty_stderr_message :
    exitSignals (some 1) (accumulatedStdErr []) = [Signal.error "", Signal.exit] ∧
    genericExitMsg (some 1) = "Process exited with code 1" ∧
    ("" : String) ≠ "Process exited with code 1" ∧
    exitSignals (some 0) (accumulatedStdErr []) = [Signal.exit] ∧
    exitSignals (some 2) (accumulatedStdErr ["boom"]) = [Signal.error "boom", Signal.exit] :=
  ⟨rfl, rfl, by decide, rfl, rfl⟩

/-- Claim C4, evaluated at the failing input: a line carrying only the
four journal-address fields decodes to a record with MESSAGE and
_HOSTNAME defaulted but with no SYSLOG_IDENTIFIER key at all - the
decoder does not default the syslog identifier the claim (and the
package README and entry type) promise. -/
theorem c4_no_syslog_identifier_default :
    decodeLine addressOnlyLine = some addressOnlyRecord ∧
    lookupField addressOnlyRecord "SYSLOG_IDENTIFIER" = none ∧
    lookupField addressOnlyRecord "MESSAGE" = some (.str "") ∧
    lookupField addressOnlyRecord "_HOSTNAME" = some (.str "") :=
  ⟨rfl, rfl, rfl, rfl⟩

/-- Claim C9: a unit, since or until option equal to the empty string is
falsy, so the constructor treats it exactly like an absent option: the
argument list is identical with the empties replaced by absence, no
corresponding token or validation occurs, and construction over
otherwise-default options succeeds - even though the unit validator
rejects the empty string whenever it is actually invoked. -/
theorem c9_empty_string_options (o : JournalCtlOptions) (f : Option (List String)) :
    buildArgs { o with unit := some "" } f = buildArgs { o with unit := none } f ∧
    buildArgs { o with since := some (.str "") } f = buildArgs { o with since := none } f ∧
    buildArgs { o with untilOpt := some (.str "") } f =
      buildArgs { o with untilOpt := none } f ∧
    buildArgs { unit := some "" } none = .ok ["-o", "json", "-f", "-n", "10"] ∧
    buildArgs { since := some (.str "") } none = .ok ["-o", "json", "-f", "-n", "10"] ∧
    buildArgs { untilOpt := some (.str "") } none = .ok ["-o", "json", "-f", "-n", "10"] ∧
    validateUnit "" = .error "Not a valid systemd unit name: \"\"" := by
  exact ⟨rfl, rfl, rfl, rfl, rfl, rfl, rfl⟩

/-- Claim C10: for any priority range whose bounds are integers in 0..7,
construction over otherwise-default options succeeds and appends -p and
the from..to text, with each bound validated individually and no
ordering check: the range may run backwards. -/
theorem c10_priority_range_no_order_check (pf pt : Int)
    (hf : 0 ≤ pf ∧ pf ≤ 7) (ht : 0 ≤ pt ∧ pt ≤ 7) :
    buildArgs { priority := some (.range (.num (pf : ℚ)) (.num (pt : ℚ))) } none =
      .ok ["-o", "json", "-f", "-n", "10", "-p", toString pf ++ ".." ++ toString pt] := by
  have hden : ∀ n : Int, ((n : ℚ)).den = 1 := fun n => Rat.den_intCast n
  have hnum : ∀ n : Int, ((n : ℚ)).num = n := fun n => Rat.num_intCast n
  have hpf : ¬(pf < 0 ∨ 7 < pf) := by omega
  have hpt : ¬(pt < 0 ∨ 7 < pt) := by omega
  have hpf0 : ¬(pf < 0) := by omega
  have hpt0 : ¬(pt < 0) := by omega
  have hpf7 : ¬(7 < pf) := by omega
  have hpt7 : ¬(7 < pt) := by omega
  simp [buildArgs, untilStep, allStep, linesStep, sinceStep, sinceUntilCheck,
        priorityStep, identifierStep, unitStep, filterStep, outputFieldsStep,
        truthyDateOpt, validatePriority, validatePositiveInteger, hden, hnum,
        hpf, hpt, hpf0, hpt0, hpf7, hpt7, exceptBindOk]

/-- Witness for C10 at the backwards range from 7 to 0. -/
theorem c10_witness :
    buildArgs { priority := some (.range (.num ((7 : Int) : ℚ)) (.num ((0 : Int) : ℚ))) } none =
      .ok ["-o", "json", "-f", "-n", "10", "-p", "7..0"] := by
  have h := c10_priority_range_no_order_check 7 0 (by decide) (by decide)
  simpa using h

lemma buildArgs_error_of_check (o : JournalCtlOptions) (f : Option (List String))
    (h : ∃ e0, sinceUntilCheck o = .error e0) : ∃ e, buildArgs o f = .error e := by
  obtain ⟨e0, h0⟩ := h
  cases h1 : untilStep o with
  | error e1 => exact ⟨e1, by simp [buildArgs, h1, Bind.bind, Except.bind]⟩
  | ok a1 =>
    cases h3 : linesStep o with
    | error e3 => exact ⟨e3, by simp [buildArgs, h1, h3, Bind.bind, Except.bind]⟩
    | ok a3 =>
      cases h4 : sinceStep o with
      | error e4 => exact ⟨e4, by simp [buildArgs, h1, h3, h4, Bind.bind, Except.bind]⟩
      | ok a4 => exact ⟨e0, by simp [buildArgs, h1, h3, h4, h0, Bind.bind, Except.bind]⟩

/-- Claim C6: whenever both the since and the until option are set (to
truthy values) and the since time value is strictly later than the until
time value, construction fails with an error and the subprocess is never
spawned. -/
theorem c6_reversed_range_fails (o : JournalCtlOptions) (f : Option (List String))
    (t1 t2 : Int)
    (hs : truthyDateOpt o.since = true) (hu : truthyDateOpt o.untilOpt = true)
    (h1 : dateTimeValue o.since = some t1) (h2 : dateTimeValue o.untilOpt = some t2)
    (hlt : t2 < t1) :
    (∃ e, buildArgs o f = .error e) ∧ constructorSpawns o f = false := by
  have hchk : ∃ e0, sinceUntilCheck o = .error e0 := by
    refine ⟨"Since date can not be more recent than Until date.", ?_⟩
    simp [sinceUntilCheck, hs, hu, h1, h2, hlt]
  have hba := buildArgs_error_of_check o f hchk
  refine ⟨hba, ?_⟩
  obtain ⟨e, he⟩ := hba
  simp [constructorSpawns, he, Except.toBool, Except.isOk]

/-- Witness for C6: since 2020-01-02 with until 2020-01-01 fails and
spawns nothing. -/
theorem c6_witness :
    (∃ e, buildArgs reversedRangeOptions none = .error e) ∧
    constructorSpawns reversedRangeOptions none = false :=
  c6_reversed_range_fails reversedRangeOptions none 1577923200000 1577836800000
    rfl rfl rfl rfl (by decide)

lemma resolveSlot_cons (a : Option (Option (List (String × Json))))
    (l : List (Option (Option (List (String × Json))))) (i : Nat)
    (v : Option (List (String × Json))) :
    resolveSlot (a :: l) (i + 1) v = a :: resolveSlot l i v := by
  unfold resolveSlot
  rw [List.get?_cons_succ]
  cases h : l.get? i with
  | none => simp [h]
  | some x =>
    cases x with
    | none => simp [h, List.set_cons_succ]
    | some r => simp [h]

lemma resolveSlot_at_pending (ms : List (List (String × Json)))
    (rest : List (Option (Option (List (String × Json)))))
    (v : Option (List (String × Json))) :
    resolveSlot (ms.map (fun r => some (some r)) ++ none :: rest) ms.length v =
      ms.map (fun r => some (some r)) ++ some v :: rest := by
  induction ms with
  | nil => simp [resolveSlot]
  | cons m ms ih => simpa [resolveSlot_cons] using ih

lemma resolveSlot_at_resolved (ms : List (List (String × Json)))
    (w : Option (List (String × Json)))
    (rest : List (Option (Option (List (String × Json)))))
    (v : Option (List (String × Json))) :
    resolveSlot (ms.map (fun r => some (some r)) ++ some w :: rest) ms.length v =
      ms.map (fun r => some (some r)) ++ some w :: rest := by
  induction ms with
  | nil => simp [resolveSlot]
  | cons m ms ih => simpa [resolveSlot_cons] using ih

lemma genStep_message_canonical (ms : List (List (String × Json)))
    (r : List (String × Json)) :
    genStep { slots := ms.map (fun x => some (some x)) ++ [none], ptr := ms.length }
        (Signal.message r) =
      { slots := (ms ++ [r]).map (fun x => some (some x)) ++ [none],
        ptr := (ms ++ [r]).length } := by
  unfold genStep
  have h1 : (ms.map (fun x => some (some x)) ++ [none]) ++ [none] =
      ms.map (fun x => some (some x)) ++ none :: [none] := by simp
  simp only [h1, resolveSlot_at_pending]
  simp

lemma runGen_messages (sigs : List Signal)
    (h : ∀ s ∈ sigs, ∃ r, s = Signal.message r) :
    ∀ ms : List (List (String × Json)),
      sigs.foldl genStep
        { slots := ms.map (fun x => some (some x)) ++ [none], ptr := ms.length } =
      { slots := (ms ++ pushRecords sigs).map (fun x => some (some x)) ++ [none],
        ptr := (ms ++ pushRecords sigs).length } := by
  induction sigs with
  | nil => intro ms; simp [pushRecords]
  | cons s sigs ih =>
    intro ms
    obtain ⟨r, rfl⟩ := h s (by simp)
    have hrest : ∀ s2 ∈ sigs, ∃ r2, s2 = Signal.message r2 :=
      fun s2 hs2 => h s2 (by simp [hs2])
    rw [List.foldl_cons, genStep_message_canonical, ih hrest (ms ++ [r])]
    simp [pushRecords]

lemma yieldedRecords_canonical (ms : List (List (String × Json)))
    (rest : List (Option (Option (List (String × Json))))) :
    yieldedRecords (ms.map (fun x => some (some x)) ++ some none :: rest) = ms := by
  induction ms with
  | nil => simp [yieldedRecords]
  | cons m ms ih => simp [yieldedRecords, ih]

lemma pushRecords_append (a b : List Signal) :
    pushRecords (a ++ b) = pushRecords a ++ pushRecords b := by
  simp [pushRecords, List.filterMap_append]

/-- Claim C1 as amended: for every run in which every line decodes
successfully, the pull-mode generator yields exactly the push-mode
record sequence, in order, whatever the exit code; divergence can arise
only from an error signal, which terminates the pull sequence early. -/
lemma genStep_error_eq (st : GenState) (m : String) :
    genStep st (.error m) = { st with slots := resolveSlot st.slots st.ptr none } := rfl

lemma genStep_exit_eq (st : GenState) :
    genStep st .exit = { st with slots := resolveSlot st.slots st.ptr none } := rfl

lemma foldl_exitSignals_canonical (ms : List (List (String × Json)))
    (code : Option Int) (txt : Option String) :
    (exitSignals code txt).foldl genStep
      { slots := ms.map (fun x => some (some x)) ++ [none], ptr := ms.length } =
    { slots := ms.map (fun x => some (some x)) ++ [some none], ptr := ms.length } := by
  unfold exitSignals
  cases hB : exitTruthy code with
  | false =>
    simp only [hB, Bool.false_eq_true, if_false, List.nil_append, List.foldl_cons,
      List.foldl_nil, genStep_exit_eq]
    rw [resolveSlot_at_pending]
  | true =>
    simp only [hB, if_true, List.cons_append, List.nil_append, List.foldl_cons,
      List.foldl_nil, genStep_error_eq, genStep_exit_eq]
    rw [resolveSlot_at_pending, resolveSlot_at_resolved]

/-- Claim C1 as amended: for every run in which every line decodes
successfully, the pull-mode generator yields exactly the push-mode
record sequence, in order, whatever the exit code; divergence can arise
only from an error signal, which terminates the pull sequence early. -/
theorem c1_error_free_equivalence (run : Run)
    (h : run.lines.all (fun l => (decodeLine l).isSome) = true) :
    pullRecords (runSignals run) = pushRecords (runSignals run) := by
  have hmsg : ∀ s ∈ run.lines.map lineSignal, ∃ r, s = Signal.message r := by
    intro s hs
    obtain ⟨l, hl, rfl⟩ := List.mem_map.mp hs
    have hd : (decodeLine l).isSome = true := by
      have h2 := List.all_eq_true.mp h l hl
      simpa using h2
    obtain ⟨r, hr⟩ := Option.isSome_iff_exists.mp hd
    exact ⟨r, by simp [lineSignal, hr]⟩
  set ms := pushRecords (run.lines.map lineSignal) with hms
  have hstart : (run.lines.map lineSignal).foldl genStep genInit =
      { slots := ms.map (fun x => some (some x)) ++ [none], ptr := ms.length } := by
    have hfold0 := runGen_messages (run.lines.map lineSignal) hmsg []
    simpa [genInit, hms] using hfold0
  have hfold : runGen (runSignals run) =
      (exitSignals run.exitCode (accumulatedStdErr run.stderrChunks)).foldl genStep
        { slots := ms.map (fun x => some (some x)) ++ [none], ptr := ms.length } := by
    unfold runGen runSignals
    rw [List.foldl_append, hstart]
  have hpull : pullRecords (runSignals run) = ms := by
    unfold pullRecords
    rw [hfold, foldl_exitSignals_canonical]
    exact yieldedRecords_canonical ms []
  have hpush : pushRecords (runSignals run) = ms := by
    unfold runSignals
    rw [pushRecords_append]
    have h3 : pushRecords (exitSignals run.exitCode (accumulatedStdErr run.stderrChunks)) = [] := by
      unfold exitSignals pushRecords
      cases exitTruthy run.exitCode <;> simp
    rw [h3, List.append_nil]
  rw [hpull, hpush]

/-- Witness for the amended C1 at a one-line clean run. -/
theorem c1_equivalence_witness :
    pullRecords (runSignals cleanRun) = pushRecords (runSignals cleanRun) :=
  c1_error_free_equivalence cleanRun rfl

/-- Counterexample for claim C1 as stated: on a run with one malformed
line followed by one valid line, push mode delivers the later record but
the pull generator, terminated by the decode-error signal, yields
nothing - the two modes diverge on records decoded after a non-fatal
decode error. -/
theorem c1_counterexample :
    pullRecords (runSignals divergingRun) ≠ pushRecords (runSignals divergingRun) := by
  have h1 : pullRecords (runSignals divergingRun) = [] := rfl
  have h2 : pushRecords (runSignals divergingRun) = [sampleRecord] := rfl
  rw [h1, h2]
  simp

/-!  Lemmas for the trailing-comma repair property. -/

lemma mkData (s : String) : String.mk s.data = s := rfl

lemma skipWs_cons_of_not (c : Char) (cs : List Char) (h : isJsonWs c = false) :
    skipWs (c :: cs) = c :: cs := by simp [skipWs, h]

lemma fieldClean_spec (s : String) (h : fieldClean s = true) :
    ∀ c ∈ s.data, c ≠ '"' ∧ c ≠ '\\' ∧ 32 ≤ c.toNat := by
  intro c hc
  have h2 := List.all_eq_true.mp h c hc
  simp only [Bool.and_eq_true, decide_eq_true_eq] at h2
  exact ⟨h2.1.1, h2.1.2, h2.2⟩

set_option maxHeartbeats 4000000 in
lemma parseStringBody_plain (c : Char) (rest : List Char)
    (h1 : c ≠ '"') (h2 : c ≠ '\\') (h3 : 32 ≤ c.toNat) :
    parseStringBody (c :: rest) = (parseStringBody rest).map fun (s, t) => (c :: s, t) := by
  rw [parseStringBody.eq_def]
  split
  next heq => simp_all
  next c2 cs2 heq =>
    injection heq with hc hcs
    subst hc
    subst hcs
    rw [if_neg h1, if_neg h2, if_neg (Nat.not_lt.mpr h3)]

set_option maxHeartbeats 1000000 in
lemma parseStringBody_quote (r : List Char) :
    parseStringBody ('"' :: r) = some ([], r) := by
  rw [parseStringBody.eq_def]
  simp

lemma parseStringBody_clean (l : List Char) (r : List Char)
    (h : ∀ c ∈ l, c ≠ '"' ∧ c ≠ '\\' ∧ 32 ≤ c.toNat) :
    parseStringBody (l ++ '"' :: r) = some (l, r) := by
  induction l with
  | nil => exact parseStringBody_quote r
  | cons c l ih =>
    obtain ⟨h1, h2, h3⟩ := h c (by simp)
    have hrest : ∀ c2 ∈ l, c2 ≠ '"' ∧ c2 ≠ '\\' ∧ 32 ≤ c2.toNat :=
      fun c2 hc2 => h c2 (by simp [hc2])
    rw [List.cons_append, parseStringBody_plain c _ h1 h2 h3, ih hrest]
    rfl

lemma parseValue_str (n : Nat) (rest : List Char) :
    parseValue (n + 1) ('"' :: rest) =
      (parseStringBody rest).map fun (s, t) => (Json.str (String.mk s), t) := rfl

lemma parseValue_obj (n : Nat) (rest : List Char) :
    parseValue (n + 1) ('{' :: rest) =
      (match skipWs rest with
       | [] => parseMembers n [] []
       | c :: r2 =>
         if c = '}' then some (.obj [], r2) else parseMembers n (c :: r2) []) := rfl

lemma parseMembers_quote (n : Nat) (rest : List Char) (acc : List (String × Json)) :
    parseMembers (n + 1) ('"' :: rest) acc =
      (match parseStringBody rest with
       | none => none
       | some (k, r1) =>
         match skipWs r1 with
         | [] => none
         | c2 :: r2 =>
           if c2 = ':' then
             match parseValue n r2 with
             | none => none
             | some (v, r3) =>
               match skipWs r3 with
               | [] => none
               | c3 :: r4 =>
                 if c3 = ',' then parseMembers n r4 (objInsert acc (String.mk k) v)
                 else if c3 = '}' then some (.obj (objInsert acc (String.mk k) v), r4)
                 else none
           else none) := rfl

lemma parseMembers_step (f : Nat) (k v : String) (tail : List Char)
    (acc : List (String × Json)) (hk : fieldClean k = true) (hv : fieldClean v = true) :
    parseMembers (f + 2) (kvChars k v ++ tail) acc =
      (match skipWs tail with
       | [] => none
       | c3 :: r4 =>
         if c3 = ',' then parseMembers (f + 1) r4 (objInsert acc k (.str v))
         else if c3 = '}' then some (.obj (objInsert acc k (.str v)), r4)
         else none) := by
  have hkv : kvChars k v ++ tail =
      '"' :: (k.data ++ '"' :: ':' :: '"' :: (v.data ++ '"' :: tail)) := by
    simp [kvChars]
  rw [hkv, show f + 2 = (f + 1) + 1 from rfl, parseMembers_quote,
      parseStringBody_clean k.data _ (fieldClean_spec k hk)]
  try dsimp only
  rw [skipWs_cons_of_not ':' _ rfl]
  try dsimp only
  rw [if_pos rfl, parseValue_str, parseStringBody_clean v.data _ (fieldClean_spec v hv)]
  simp only [Option.map_some']
  try dsimp only
  try simp only [mkData]

lemma membersChars_cons (kv : String × String) (kv2 : String × String)
    (rest : List (String × String)) :
    membersChars (kv :: kv2 :: rest) =
      kvChars kv.1 kv.2 ++ ',' :: membersChars (kv2 :: rest) := rfl

lemma parseMembers_render (kvs : List (String × String)) :
    kvs ≠ [] →
    (∀ kv ∈ kvs, fieldClean kv.1 = true ∧ fieldClean kv.2 = true) →
    ∀ (f : Nat) (acc : List (String × Json)) (tail tail' : List Char),
      kvs.length ≤ f →
      skipWs tail = '}' :: tail' →
      parseMembers (f + 1) (membersChars kvs ++ tail) acc =
        some (.obj (kvs.foldl (fun a kv => objInsert a kv.1 (.str kv.2)) acc), tail') := by
  induction kvs with
  | nil => intro hne; exact absurd rfl hne
  | cons kv rest ih =>
    intro _ hclean f acc tail tail' hf htail
    obtain ⟨hk, hv⟩ := hclean kv (by simp)
    have hrest : ∀ kv2 ∈ rest, fieldClean kv2.1 = true ∧ fieldClean kv2.2 = true :=
      fun kv2 hkv2 => hclean kv2 (by simp [hkv2])
    have hflen : rest.length + 1 ≤ f := by simpa using hf
    obtain ⟨g, rfl⟩ : ∃ g, f = g + 1 := ⟨f - 1, by omega⟩
    cases rest with
    | nil =>
      have hm : membersChars [kv] = kvChars kv.1 kv.2 := rfl
      rw [hm, show (g + 1) + 1 = g + 2 from rfl,
          parseMembers_step g kv.1 kv.2 tail acc hk hv, htail]
      try dsimp only
      rw [if_neg (by decide : ¬('}' : Char) = ','), if_pos rfl]
      simp
    | cons kv2 rest2 =>
      have hf2 : kv2 :: rest2 ≠ [] := by simp
      have hm : membersChars (kv :: kv2 :: rest2) ++ tail =
          kvChars kv.1 kv.2 ++ ',' :: (membersChars (kv2 :: rest2) ++ tail) := by
        rw [membersChars_cons]
        simp
      rw [hm, show (g + 1) + 1 = g + 2 from rfl,
          parseMembers_step g kv.1 kv.2 _ acc hk hv,
          skipWs_cons_of_not ',' _ rfl]
      try dsimp only
      rw [if_pos rfl]
      have hih := ih hf2 hrest g (objInsert acc kv.1 (.str kv.2)) tail tail'
        (by simpa using hflen) htail
      rw [hih]
      simp

lemma membersChars_length_ge (kvs : List (String × String)) :
    kvs.length ≤ (membersChars kvs).length := by
  induction kvs with
  | nil => simp [membersChars]
  | cons kv rest ih =>
    cases rest with
    | nil => simp [membersChars, kvChars]
    | cons kv2 rest2 =>
      rw [membersChars_cons]
      have ih2 := ih
      simp only [List.length_cons, List.length_append, kvChars] at ih2 ⊢
      omega

lemma membersChars_cons_head (kv : String × String) (rest : List (String × String)) :
    ∃ X, membersChars (kv :: rest) = '"' :: X := by
  cases rest with
  | nil => exact ⟨_, rfl⟩
  | cons kv2 rest2 => exact ⟨_, rfl⟩

lemma parseJsonText_render_tail (kvs : List (String × String)) (tail : List Char)
    (hclean : ∀ kv ∈ kvs, fieldClean kv.1 = true ∧ fieldClean kv.2 = true)
    (htail : skipWs tail = ['}']) :
    parseJsonText (String.mk ('{' :: (membersChars kvs ++ tail))) =
      some (.obj (buildRecJson kvs)) := by
  unfold parseJsonText
  have hlen : (String.mk ('{' :: (membersChars kvs ++ tail))).data.length =
      (membersChars kvs).length + tail.length + 1 := by simp
  rw [show (String.mk ('{' :: (membersChars kvs ++ tail))).data =
      '{' :: (membersChars kvs ++ tail) from rfl]
  rw [show 2 * ('{' :: (membersChars kvs ++ tail)).length + 2 =
      (2 * ('{' :: (membersChars kvs ++ tail)).length + 1) + 1 from rfl]
  rw [parseValue_obj]
  cases kvs with
  | nil =>
    rw [show membersChars [] ++ tail = tail from rfl, htail]
    try dsimp only
    rw [if_pos rfl]
    simp [buildRecJson, skipWs]
  | cons kv rest =>
    obtain ⟨X, hX⟩ := membersChars_cons_head kv rest
    have hXtail : membersChars (kv :: rest) ++ tail = '"' :: (X ++ tail) := by
      rw [hX]; simp
    rw [hXtail, skipWs_cons_of_not '"' _ rfl]
    try dsimp only
    rw [if_neg (by decide : ¬('"' : Char) = '}'), ← hXtail]
    have hflen : (kv :: rest).length ≤ 2 * ('{' :: (membersChars (kv :: rest) ++ tail)).length := by
      have hmem := membersChars_length_ge (kv :: rest)
      simp only [List.length_cons, List.length_append] at hmem ⊢
      omega
    rw [parseMembers_render (kv :: rest) (by simp) hclean _ [] tail [] hflen htail]
    simp [buildRecJson, skipWs]

lemma dropWhile_all_append (p : Char → Bool) (xs ys : List Char)
    (h : ∀ c ∈ xs, p c = true) :
    List.dropWhile p (xs ++ ys) = List.dropWhile p ys := by
  induction xs with
  | nil => simp
  | cons c xs ih =>
    have hc := h c (by simp)
    have hrest : ∀ c2 ∈ xs, p c2 = true := fun c2 hc2 => h c2 (by simp [hc2])
    simp [List.dropWhile_cons, hc, ih hrest]

lemma membersChars_ends_quote (kvs : List (String × String)) (hne : kvs ≠ []) :
    ∃ t, membersChars kvs = t ++ ['"'] := by
  induction kvs with
  | nil => exact absurd rfl hne
  | cons kv rest ih =>
    cases rest with
    | nil =>
      refine ⟨'"' :: (kv.1.data ++ '"' :: ':' :: '"' :: kv.2.data), ?_⟩
      show kvChars kv.1 kv.2 = _
      simp [kvChars]
    | cons kv2 rest2 =>
      obtain ⟨t, ht⟩ := ih (by simp)
      refine ⟨kvChars kv.1 kv.2 ++ ',' :: t, ?_⟩
      rw [membersChars_cons, ht]
      simp

lemma repairLine_render_trailing (kvs : List (String × String)) (ws : String)
    (hws : ws.data.all isJsRegexWs = true) :
    repairLine (renderTrailingLine kvs ws) =
      String.mk ('{' :: (membersChars kvs ++ [' ', '}'])) := by
  unfold repairLine renderTrailingLine
  have hrev : ('{' :: (membersChars kvs ++ ',' :: (ws.data ++ ['}']))).reverse =
      '}' :: (ws.data.reverse ++ ',' :: ((membersChars kvs).reverse ++ ['{'])) := by
    simp
  rw [show (String.mk ('{' :: (membersChars kvs ++ ',' :: (ws.data ++ ['}'])))).data =
      '{' :: (membersChars kvs ++ ',' :: (ws.data ++ ['}'])) from rfl]
  rw [hrev]
  try dsimp only
  rw [if_pos rfl]
  have hwsrev : ∀ c ∈ ws.data.reverse, isJsRegexWs c = true := by
    intro c hc
    exact List.all_eq_true.mp hws c (List.mem_reverse.mp hc)
  rw [dropWhile_all_append _ _ _ hwsrev, List.dropWhile_cons,
      if_neg (by decide : ¬isJsRegexWs ',' = true)]
  try dsimp only
  rw [if_pos rfl]
  congr 1
  simp

lemma repairLine_render_obj (kvs : List (String × String)) :
    repairLine (renderObjLine kvs) = renderObjLine kvs := by
  cases kvs with
  | nil => rfl
  | cons kv rest =>
    obtain ⟨t, ht⟩ := membersChars_ends_quote (kv :: rest) (by simp)
    unfold repairLine renderObjLine
    have hrev : ('{' :: (membersChars (kv :: rest) ++ ['}'])).reverse =
        '}' :: ('"' :: (t.reverse ++ ['{'])) := by
      rw [ht]; simp
    rw [show (String.mk ('{' :: (membersChars (kv :: rest) ++ ['}']))).data =
        '{' :: (membersChars (kv :: rest) ++ ['}']) from rfl]
    rw [hrev]
    try dsimp only
    rw [if_pos rfl, List.dropWhile_cons, if_neg (by decide : ¬isJsRegexWs '"' = true)]
    try dsimp only
    rw [if_neg (by decide : ¬('"' : Char) = ',')]

/-- Claim C7: a rendered line ending in a stray comma (and regex
whitespace) immediately before the closing brace decodes successfully
and yields exactly the record of the syntactically corrected line. -/
theorem c7_trailing_comma_repair (kvs : List (String × String)) (ws : String)
    (hclean : ∀ kv ∈ kvs, fieldClean kv.1 = true ∧ fieldClean kv.2 = true)
    (hws : ws.data.all isJsRegexWs = true) :
    decodeLine (renderTrailingLine kvs ws) = some (normalizeRecord (buildRecJson kvs)) ∧
    decodeLine (renderObjLine kvs) = some (normalizeRecord (buildRecJson kvs)) := by
  constructor
  · unfold decodeLine
    rw [repairLine_render_trailing kvs ws hws,
        parseJsonText_render_tail kvs [' ', '}'] hclean rfl]
  · unfold decodeLine
    rw [repairLine_render_obj]
    unfold renderObjLine
    rw [parseJsonText_render_tail kvs ['}'] hclean rfl]

/-- Witness for C7 at a concrete one-field line with a trailing comma
and one space. -/
theorem c7_witness :
    decodeLine (renderTrailingLine [("A", "b")] " ") = some sampleRecord ∧
    decodeLine (renderObjLine [("A", "b")]) = some sampleRecord := by
  have h := c7_trailing_comma_repair [("A", "b")] " " (by decide) rfl
  exact ⟨h.1, h.2⟩

/-!  Lemmas about the line-count tokens (claim C8). -/

lemma validateDate_ok (s d : String) (h : validateDate s = .ok d) :
    d = s ∧ isDateFormat s = true := by
  unfold validateDate at h
  cases h1 : isDateFormat s with
  | false => rw [h1] at h; simp at h
  | true =>
    rw [h1] at h
    cases h2 : (jsDateParse s).isNone with
    | true => rw [h2] at h; simp at h
    | false =>
      rw [h2] at h
      simp at h
      exact ⟨h.symm, rfl⟩

lemma dateToArgString_length (t : Int) : 5 ≤ (dateToArgString t).length := by
  unfold dateToArgString
  simp only [String.length_append, show ("-" : String).length = 1 from rfl,
    show (" " : String).length = 1 from rfl, show (":" : String).length = 1 from rfl]
  omega

lemma dateToArgString_ne (t : Int) : dateToArgString t ≠ "-n" := by
  intro h
  have hlen := dateToArgString_length t
  rw [h] at hlen
  exact absurd hlen (by decide)

lemma validatePriority_ok_bounds (p : JsNum) (n : Int) (h : validatePriority p = .ok n) :
    0 ≤ n ∧ n ≤ 7 := by
  unfold validatePriority at h
  cases hv : validatePositiveInteger p with
  | error e => rw [hv] at h; simp [Bind.bind, Except.bind] at h
  | ok m =>
    rw [hv] at h
    simp only [exceptBindOk] at h
    cases hc : (m < 0 || 7 < m) with
    | true => rw [hc] at h; simp at h
    | false =>
      rw [hc] at h
      simp at h
      simp only [Bool.or_eq_false_iff, decide_eq_false_iff_not, not_lt] at hc
      omega

lemma toString_priority_ne (n : Int) (h0 : 0 ≤ n) (h7 : n ≤ 7) : toString n ≠ "-n" := by
  interval_cases n <;> decide

lemma dots_ne (a b : String) : a ++ ".." ++ b ≠ "-n" := by
  intro h
  have hd := congrArg String.data h
  rw [String.data_append, String.data_append] at hd
  have hm : '.' ∈ a.data ++ (".." : String).data ++ b.data := by
    simp [show (".." : String).data = ['.', '.'] from rfl]
  rw [hd] at hm
  exact absurd hm (by decide)

lemma eqsign_ne (a b : String) : a ++ "=" ++ b ≠ "-n" := by
  intro h
  have hd := congrArg String.data h
  rw [String.data_append, String.data_append] at hd
  have hm : '=' ∈ a.data ++ ("=" : String).data ++ b.data := by
    simp [show ("=" : String).data = ['='] from rfl]
  rw [hd] at hm
  exact absurd hm (by decide)

lemma validateFieldName_ok (s d : String) (h : validateFieldName s = .ok d) :
    d = s ∧ s ≠ "-n" := by
  unfold validateFieldName at h
  cases hc : (!s.data.isEmpty && s.data.all isFieldNameChar) with
  | false => rw [hc] at h; simp at h
  | true =>
    rw [hc] at h
    simp at h
    refine ⟨h.symm, ?_⟩
    intro he
    rw [he] at hc
    exact absurd hc (by decide)

lemma validateSyslogIdentifier_ok (s d : String) (h : validateSyslogIdentifier s = .ok d) :
    d = s := by
  unfold validateSyslogIdentifier at h
  cases hc : (!s.data.isEmpty && s.data.all fun c => !isJsRegexWs c) with
  | false => rw [hc] at h; simp at h
  | true => rw [hc] at h; simp at h; exact h.symm

lemma validateUnit_ok (s d : String) (h : validateUnit s = .ok d) : d = s := by
  unfold validateUnit at h
  cases hc : (!s.data.isEmpty && s.data.all isUnitChar) with
  | false => rw [hc] at h; simp at h
  | true => rw [hc] at h; simp at h; exact h.symm

lemma untilStep_no_n (o : JournalCtlOptions) (a : List String)
    (h : untilStep o = .ok a) : ("-n" : String) ∉ a := by
  unfold untilStep at h
  cases ho : o.untilOpt with
  | none =>
    rw [ho] at h
    try dsimp only at h
    injection h with hv
    subst hv
    decide
  | some d =>
    rw [ho] at h
    try dsimp only at h
    cases d with
    | str s =>
      try dsimp only at h
      cases he : s.isEmpty with
      | true =>
        rw [he] at h
        simp only [if_true] at h
        injection h with hv
        subst hv
        decide
      | false =>
        rw [he] at h
        simp only [Bool.false_eq_true, if_false] at h
        cases hv : validateDate s with
        | error e => rw [hv] at h; simp [Bind.bind, Except.bind] at h
        | ok ds =>
          rw [hv] at h
          simp only [exceptBindOk] at h
          injection h with hv2
          subst hv2
          obtain ⟨hds, hfmt⟩ := validateDate_ok s ds hv
          subst hds
          have hs : ds ≠ "-n" := fun he2 => absurd (he2 ▸ hfmt) (by decide)
          intro hm
          simp only [List.mem_cons, List.not_mem_nil, or_false] at hm
          rcases hm with hm | hm
          · exact absurd hm (by decide)
          · exact hs hm.symm
    | date t =>
      try dsimp only at h
      cases t with
      | none =>
        rw [show dateArgString (.date none) = .error "Invalid time value" from rfl] at h
        simp [Bind.bind, Except.bind] at h
      | some tv =>
        rw [show dateArgString (.date (some tv)) = .ok (dateToArgString tv) from rfl] at h
        simp only [exceptBindOk] at h
        injection h with hv2
        subst hv2
        intro hm
        simp only [List.mem_cons, List.not_mem_nil, or_false] at hm
        rcases hm with hm | hm
        · exact absurd hm (by decide)
        · exact dateToArgString_ne tv hm.symm

lemma sinceStep_no_n (o : JournalCtlOptions) (a : List String)
    (h : sinceStep o = .ok a) : ("-n" : String) ∉ a := by
  unfold sinceStep at h
  cases ho : o.since with
  | none =>
    rw [ho] at h
    try dsimp only at h
    injection h with hv
    subst hv
    decide
  | some d =>
    rw [ho] at h
    try dsimp only at h
    cases d with
    | str s =>
      try dsimp only at h
      cases he : s.isEmpty with
      | true =>
        rw [he] at h
        simp only [if_true] at h
        injection h with hv
        subst hv
        decide
      | false =>
        rw [he] at h
        simp only [Bool.false_eq_true, if_false] at h
        cases hv : validateDate s with
        | error e => rw [hv] at h; simp [Bind.bind, Except.bind] at h
        | ok ds =>
          rw [hv] at h
          simp only [exceptBindOk] at h
          injection h with hv2
          subst hv2
          obtain ⟨hds, hfmt⟩ := validateDate_ok s ds hv
          subst hds
          have hs : ds ≠ "-n" := fun he2 => absurd (he2 ▸ hfmt) (by decide)
          intro hm
          simp only [List.mem_cons, List.not_mem_nil, or_false] at hm
          rcases hm with hm | hm
          · exact absurd hm (by decide)
          · exact hs hm.symm
    | date t =>
      try dsimp only at h
      cases t with
      | none =>
        rw [show dateArgString (.date none) = .error "Invalid time value" from rfl] at h
        simp [Bind.bind, Except.bind] at h
      | some tv =>
        rw [show dateArgString (.date (some tv)) = .ok (dateToArgString tv) from rfl] at h
        simp only [exceptBindOk] at h
        injection h with hv2
        subst hv2
        intro hm
        simp only [List.mem_cons, List.not_mem_nil, or_false] at hm
        rcases hm with hm | hm
        · exact absurd hm (by decide)
        · exact dateToArgString_ne tv hm.symm

lemma priorityStep_no_n (o : JournalCtlOptions) (a : List String)
    (h : priorityStep o = .ok a) : ("-n" : String) ∉ a := by
  unfold priorityStep at h
  cases ho : o.priority with
  | none =>
    rw [ho] at h
    try dsimp only at h
    injection h with hv
    subst hv
    decide
  | some pin =>
    rw [ho] at h
    try dsimp only at h
    cases pin with
    | single p =>
      try dsimp only at h
      cases hv : validatePriority p with
      | error e => rw [hv] at h; simp [Bind.bind, Except.bind] at h
      | ok n =>
        rw [hv] at h
        simp only [exceptBindOk] at h
        injection h with hv2
        subst hv2
        obtain ⟨h0, h7⟩ := validatePriority_ok_bounds p n hv
        intro hm
        simp only [List.mem_cons, List.not_mem_nil, or_false] at hm
        rcases hm with hm | hm
        · exact absurd hm (by decide)
        · exact toString_priority_ne n h0 h7 hm.symm
    | range pf pt =>
      try dsimp only at h
      cases hf : validatePriority pf with
      | error e => rw [hf] at h; simp [Bind.bind, Except.bind] at h
      | ok nf =>
        rw [hf] at h
        simp only [exceptBindOk] at h
        cases ht : validatePriority pt with
        | error e => rw [ht] at h; simp [Bind.bind, Except.bind] at h
        | ok nt =>
          rw [ht] at h
          simp only [exceptBindOk] at h
          injection h with hv2
          subst hv2
          intro hm
          simp only [List.mem_cons, List.not_mem_nil, or_false] at hm
          rcases hm with hm | hm
          · exact absurd hm (by decide)
          · exact dots_ne (toString nf) (toString nt) hm.symm

lemma identifierStep_no_n (o : JournalCtlOptions) (a : List String)
    (hid : o.identifier ≠ some "-n")
    (h : identifierStep o = .ok a) : ("-n" : String) ∉ a := by
  unfold identifierStep at h
  cases ho : o.identifier with
  | none =>
    rw [ho] at h
    try dsimp only at h
    injection h with hv
    subst hv
    decide
  | some s =>
    rw [ho] at h
    try dsimp only at h
    cases hv : validateSyslogIdentifier s with
    | error e => rw [hv] at h; simp [Bind.bind, Except.bind] at h
    | ok i =>
      rw [hv] at h
      simp only [exceptBindOk] at h
      injection h with hv2
      subst hv2
      have his : i = s := validateSyslogIdentifier_ok s i hv
      subst his
      have hs : i ≠ "-n" := fun he => hid (by rw [ho, he])
      intro hm
      simp only [List.mem_cons, List.not_mem_nil, or_false] at hm
      rcases hm with hm | hm
      · exact absurd hm (by decide)
      · exact hs hm.symm

lemma unitStep_no_n (o : JournalCtlOptions) (a : List String)
    (hunit : o.unit ≠ some "-n")
    (h : unitStep o = .ok a) : ("-n" : String) ∉ a := by
  unfold unitStep at h
  cases ho : o.unit with
  | none =>
    rw [ho] at h
    try dsimp only at h
    injection h with hv
    subst hv
    decide
  | some s =>
    rw [ho] at h
    try dsimp only at h
    cases he : s.isEmpty with
    | true =>
      rw [he] at h
      simp only [if_true] at h
      injection h with hv
      subst hv
      decide
    | false =>
      rw [he] at h
      simp only [Bool.false_eq_true, if_false] at h
      cases hv : validateUnit s with
      | error e => rw [hv] at h; simp [Bind.bind, Except.bind] at h
      | ok u =>
        rw [hv] at h
        simp only [exceptBindOk] at h
        injection h with hv2
        subst hv2
        have hus : u = s := validateUnit_ok s u hv
        subst hus
        have hs : u ≠ "-n" := fun he2 => hunit (by rw [ho, he2])
        intro hm
        simp only [List.mem_cons, List.not_mem_nil, or_false] at hm
        rcases hm with hm | hm
        · exact absurd hm (by decide)
        · exact hs hm.symm

lemma filterTokens_no_n (kvs : List (String × String)) (a : List String)
    (h : filterTokens kvs = .ok a) : ("-n" : String) ∉ a := by
  induction kvs generalizing a with
  | nil =>
    unfold filterTokens at h
    injection h with hv
    subst hv
    decide
  | cons kv rest ih =>
    unfold filterTokens at h
    cases hv : validateFieldName kv.1 with
    | error e => rw [hv] at h; simp [Bind.bind, Except.bind] at h
    | ok k =>
      rw [hv] at h
      simp only [exceptBindOk] at h
      cases hr : filterTokens rest with
      | error e => rw [hr] at h; simp [Bind.bind, Except.bind] at h
      | ok others =>
        rw [hr] at h
        simp only [exceptBindOk] at h
        injection h with hv2
        subst hv2
        intro hm
        simp only [List.mem_cons] at hm
        rcases hm with hm | hm
        · exact eqsign_ne k kv.2 hm.symm
        · exact ih others hr hm

lemma filterStep_no_n (o : JournalCtlOptions) (a : List String)
    (h : filterStep o = .ok a) : ("-n" : String) ∉ a := by
  unfold filterStep at h
  cases ho : o.filter with
  | none =>
    rw [ho] at h
    try dsimp only at h
    injection h with hv
    subst hv
    decide
  | some kvs =>
    rw [ho] at h
    try dsimp only at h
    exact filterTokens_no_n kvs a h

lemma outputFieldTokens_no_n (fs : List String) (a : List String)
    (h : outputFieldTokens fs = .ok a) : ("-n" : String) ∉ a := by
  induction fs generalizing a with
  | nil =>
    unfold outputFieldTokens at h
    injection h with hv
    subst hv
    decide
  | cons fn rest ih =>
    unfold outputFieldTokens at h
    cases hv : validateFieldName fn with
    | error e => rw [hv] at h; simp [Bind.bind, Except.bind] at h
    | ok n =>
      rw [hv] at h
      simp only [exceptBindOk] at h
      cases hr : outputFieldTokens rest with
      | error e => rw [hr] at h; simp [Bind.bind, Except.bind] at h
      | ok others =>
        rw [hr] at h
        simp only [exceptBindOk] at h
        injection h with hv2
        subst hv2
        obtain ⟨hnf, hne⟩ := validateFieldName_ok fn n hv
        subst hnf
        intro hm
        simp only [List.mem_cons] at hm
        rcases hm with hm | hm | hm
        · exact absurd hm (by decide)
        · exact hne hm.symm
        · exact ih others hr hm

lemma outputFieldsStep_no_n (f : Option (List String)) (a : List String)
    (h : outputFieldsStep f = .ok a) : ("-n" : String) ∉ a := by
  unfold outputFieldsStep at h
  cases f with
  | none =>
    try dsimp only at h
    injection h with hv
    subst hv
    decide
  | some fs =>
    try dsimp only at h
    cases ht : outputFieldTokens fs with
    | error e => rw [ht] at h; simp [Bind.bind, Except.bind] at h
    | ok toks =>
      rw [ht] at h
      simp only [exceptBindOk] at h
      injection h with hv2
      subst hv2
      intro hm
      simp only [List.mem_append] at hm
      rcases hm with ((hm | hm) | hm) | hm
      · exact outputFieldTokens_no_n fs toks ht hm
      · revert hm
        cases fs.contains "MESSAGE" <;> decide
      · revert hm
        cases fs.contains "SYSLOG_IDENTIFIER" <;> decide
      · revert hm
        cases fs.contains "_HOSTNAME" <;> decide

lemma allStep_no_n (o : JournalCtlOptions) : ("-n" : String) ∉ allStep o := by
  unfold allStep
  cases o.all <;> decide

lemma buildArgs_ok_decomp (o : JournalCtlOptions) (f : Option (List String))
    (args : List String) (h : buildArgs o f = .ok args) :
    ∃ a1 a3 a4 a5 a6 a7 a8 a9,
      untilStep o = .ok a1 ∧ linesStep o = .ok a3 ∧ sinceStep o = .ok a4 ∧
      priorityStep o = .ok a5 ∧ identifierStep o = .ok a6 ∧ unitStep o = .ok a7 ∧
      filterStep o = .ok a8 ∧ outputFieldsStep f = .ok a9 ∧
      args = ["-o", "json"] ++ a1 ++ allStep o ++ a3 ++ a4 ++ a5 ++ a6 ++ a7 ++ a8 ++ a9 := by
  unfold buildArgs at h
  cases h1 : untilStep o with
  | error e => rw [h1] at h; simp [Bind.bind, Except.bind] at h
  | ok a1 =>
  rw [h1] at h
  simp only [exceptBindOk] at h
  cases h3 : linesStep o with
  | error e => rw [h3] at h; simp [Bind.bind, Except.bind] at h
  | ok a3 =>
  rw [h3] at h
  simp only [exceptBindOk] at h
  cases h4 : sinceStep o with
  | error e => rw [h4] at h; simp [Bind.bind, Except.bind] at h
  | ok a4 =>
  rw [h4] at h
  simp only [exceptBindOk] at h
  cases hc : sinceUntilCheck o with
  | error e => rw [hc] at h; simp [Bind.bind, Except.bind] at h
  | ok u =>
  rw [hc] at h
  simp only [exceptBindOk] at h
  cases h5 : priorityStep o with
  | error e => rw [h5] at h; simp [Bind.bind, Except.bind] at h
  | ok a5 =>
  rw [h5] at h
  simp only [exceptBindOk] at h
  cases h6 : identifierStep o with
  | error e => rw [h6] at h; simp [Bind.bind, Except.bind] at h
  | ok a6 =>
  rw [h6] at h
  simp only [exceptBindOk] at h
  cases h7 : unitStep o with
  | error e => rw [h7] at h; simp [Bind.bind, Except.bind] at h
  | ok a7 =>
  rw [h7] at h
  simp only [exceptBindOk] at h
  cases h8 : filterStep o with
  | error e => rw [h8] at h; simp [Bind.bind, Except.bind] at h
  | ok a8 =>
  rw [h8] at h
  simp only [exceptBindOk] at h
  cases h9 : outputFieldsStep f with
  | error e => rw [h9] at h; simp [Bind.bind, Except.bind] at h
  | ok a9 =>
  rw [h9] at h
  simp only [exceptBindOk] at h
  injection h with hv
  exact ⟨a1, a3, a4, a5, a6, a7, a8, a9, rfl, rfl, rfl, rfl, rfl, rfl, rfl, rfl, hv.symm⟩

lemma buildArgs_error_of_lines (o : JournalCtlOptions) (f : Option (List String))
    (hl : ∃ e, linesStep o = .error e) : ∃ e2, buildArgs o f = .error e2 := by
  obtain ⟨e, he⟩ := hl
  cases h1 : untilStep o with
  | error e1 => exact ⟨e1, by simp [buildArgs, h1, Bind.bind, Except.bind]⟩
  | ok a1 => exact ⟨e, by simp [buildArgs, h1, he, Bind.bind, Except.bind, exceptBindOk]⟩

/-- Claim C8: the line-count tokens.  The argument list gets -n 10 in
the default case (no truthy until or since, no explicit lines); an
explicit lines value is validated and -n with its value appended
whatever the date options; a validation failure fails construction; and
when a date option is set with no explicit lines, no -n token appears at
all (the identifier and unit options are assumed not to be the literal
string -n, which they could smuggle in as their own argument values). -/
theorem c8_line_count_tokens (o : JournalCtlOptions) (f : Option (List String))
    (hid : o.identifier ≠ some "-n") (hunit : o.unit ≠ some "-n") :
    ((truthyDateOpt o.untilOpt = false ∧ truthyDateOpt o.since = false ∧ o.lines = none) →
      ∀ args, buildArgs o f = .ok args →
        ∃ pre post, args = pre ++ "-n" :: "10" :: post) ∧
    (∀ v n, o.lines = some v → validatePositiveInteger v = .ok n →
      ∀ args, buildArgs o f = .ok args →
        ∃ pre post, args = pre ++ "-n" :: toString n :: post) ∧
    (∀ v e, o.lines = some v → validatePositiveInteger v = .error e →
      ∃ e2, buildArgs o f = .error e2) ∧
    (((truthyDateOpt o.untilOpt = true ∨ truthyDateOpt o.since = true) ∧ o.lines = none) →
      ∀ args, buildArgs o f = .ok args → ("-n" : String) ∉ args) := by
  refine ⟨?_, ?_, ?_, ?_⟩
  · rintro ⟨hu, hs, hl⟩ args hok
    obtain ⟨a1, a3, a4, a5, a6, a7, a8, a9, h1, h3, h4, h5, h6, h7, h8, h9, hargs⟩ :=
      buildArgs_ok_decomp o f args hok
    have h3d : linesStep o = .ok ["-n", "10"] := by
      unfold linesStep
      rw [hl]
      try dsimp only
      rw [hu, hs]
      rfl
    rw [h3d] at h3
    injection h3 with h3v
    subst h3v
    refine ⟨["-o", "json"] ++ a1 ++ allStep o, a4 ++ a5 ++ a6 ++ a7 ++ a8 ++ a9, ?_⟩
    rw [hargs]
    simp [List.append_assoc]
  · rintro v n hl hv args hok
    obtain ⟨a1, a3, a4, a5, a6, a7, a8, a9, h1, h3, h4, h5, h6, h7, h8, h9, hargs⟩ :=
      buildArgs_ok_decomp o f args hok
    have h3d : linesStep o = .ok ["-n", toString n] := by
      unfold linesStep
      rw [hl]
      try dsimp only
      rw [hv]
      rfl
    rw [h3d] at h3
    injection h3 with h3v
    subst h3v
    refine ⟨["-o", "json"] ++ a1 ++ allStep o, a4 ++ a5 ++ a6 ++ a7 ++ a8 ++ a9, ?_⟩
    rw [hargs]
    simp [List.append_assoc]
  · rintro v e hl hv
    apply buildArgs_error_of_lines
    refine ⟨e, ?_⟩
    unfold linesStep
    rw [hl]
    try dsimp only
    rw [hv]
    rfl
  · rintro ⟨hd, hl⟩ args hok
    obtain ⟨a1, a3, a4, a5, a6, a7, a8, a9, h1, h3, h4, h5, h6, h7, h8, h9, hargs⟩ :=
      buildArgs_ok_decomp o f args hok
    have h3d : linesStep o = .ok [] := by
      unfold linesStep
      rw [hl]
      try dsimp only
      rcases hd with hd | hd <;> simp [hd]
    rw [h3d] at h3
    injection h3 with h3v
    subst h3v
    rw [hargs]
    intro hm
    simp only [List.append_assoc, List.mem_append, List.cons_append, List.nil_append,
      List.mem_cons, List.not_mem_nil, or_false, false_or] at hm
    rcases hm with hm | hm | hm | hm | hm | hm | hm | hm | hm | hm
    · exact absurd hm (by decide)
    · exact absurd hm (by decide)
    · exact untilStep_no_n o a1 h1 hm
    · exact allStep_no_n o hm
    · exact sinceStep_no_n o a4 h4 hm
    · exact priorityStep_no_n o a5 h5 hm
    · exact identifierStep_no_n o a6 hid h6 hm
    · exact unitStep_no_n o a7 hunit h7 hm
    · exact filterStep_no_n o a8 h8 hm
    · exact outputFieldsStep_no_n f a9 h9 hm

/-- Witness for C8: with until set and no explicit lines no -n token
appears; with lines 7 the -n 7 tokens appear; with an invalid line
count construction fails. -/
theorem c8_witness :
    (∀ args, buildArgs { untilOpt := some (.str "2020-01-01") } none = .ok args →
      ("-n" : String) ∉ args) ∧
    (∃ pre post, buildArgs { lines := some (.num 7) } none = .ok (pre ++ "-n" :: "7" :: post)) ∧
    (∃ e2, buildArgs { lines := some .nan } none = .error e2) := by
  refine ⟨?_, ?_, ?_⟩
  · intro args hok
    exact (c8_line_count_tokens { untilOpt := some (.str "2020-01-01") } none
      (by simp) (by simp)).2.2.2 ⟨Or.inl rfl, rfl⟩ args hok
  · obtain ⟨pre, post, hpp⟩ :=
      (c8_line_count_tokens { lines := some (.num 7) } none (by simp) (by simp)).2.1
        (.num 7) 7 rfl (by rfl) _ rfl
    have h2 : buildArgs { lines := some (.num 7) } none =
        .ok (pre ++ "-n" :: toString (7 : Int) :: post) := by
      rw [← hpp]
      rfl
    exact ⟨pre, post, by simpa using h2⟩
  · exact (c8_line_count_tokens { lines := some .nan } none (by simp) (by simp)).2.2.1
      .nan "Not an integer: NaN" rfl rfl
